import Mathlib

/-!
# Verification of the InstagramPostsScrapper acquisition pipeline

A shallow embedding, in Lean 4, of the image-acquisition and format-normalization
pipeline of the repository (`downloadimages.py`, `downloadimagesasjpg.py`,
`downloadimagesasjpgforce.py`) and of the category-foldering utility
(`copy_images_to_events.py`), together with theorems settling the specification
claims about them.

Modelling conventions:
* Python strings are Lean `String`s; the character-level work is done on
  `List Char` (`String.data`) so that everything reduces by `decide`/`rfl`.
  The development evaluates the string transforms on ASCII inputs; ASCII
  fragments of Python's character classes (`str.lower`, `\w`, `str.isalpha`)
  are modelled accordingly.
* The filesystem directory that matters to the pipeline (`images_dir`) is a
  snapshot: a `List String` of the filenames that exist in it.
* External effectful calls (the HTTP GET of `requests`, PIL's decoder and
  encoder, `Path.unlink`, `Path.write_bytes`) are modelled by oracle inputs
  describing their outcome, and the code under verification is translated
  around them statement by statement.
* `hashlib.sha1(...).hexdigest()` is modelled as an opaque input string
  (`urlHash`): the pipeline only ever slices and concatenates it.
-/

namespace Scrapper

/-- ASCII lower-casing of one character, the fragment of Python's `str.lower`
exercised by this development (all inputs evaluated here are ASCII). -/
def lowerChar (c : Char) : Char :=
  if 65 ≤ c.toNat ∧ c.toNat ≤ 90 then Char.ofNat (c.toNat + 32) else c

/-- Python `s.lower()` on the character list. -/
def lowerL (cs : List Char) : List Char := cs.map lowerChar

/-- Python `s.lower()`. -/
def lowerS (s : String) : String := ⟨lowerL s.data⟩

/-- ASCII letter test (fragment of Python's `str.isalpha` used on URLs). -/
def isAsciiAlpha (c : Char) : Bool :=
  (65 ≤ c.toNat ∧ c.toNat ≤ 90) ∨ (97 ≤ c.toNat ∧ c.toNat ≤ 122)

/-- ASCII digit test. -/
def isAsciiDigit (c : Char) : Bool := 48 ≤ c.toNat ∧ c.toNat ≤ 57

/-- ASCII whitespace test: the characters Python's `str.strip()` removes
(restricted to ASCII). -/
def isPyWhitespace (c : Char) : Bool :=
  c = ' ' ∨ c = '\t' ∨ c = '\n' ∨ c = '\r' ∨ c.toNat = 11 ∨ c.toNat = 12

/-- Python `s.strip()` (ASCII whitespace model). -/
def pyStrip (s : String) : String :=
  ⟨((s.data.dropWhile (isPyWhitespace ·)).reverse.dropWhile (isPyWhitespace ·)).reverse⟩

/-- Decimal rendering of a natural number, digit characters accumulated in
`acc`; structural recursion on `fuel` so that concrete instances reduce.
This is the embedding of Python's `str(i)` for a non-negative `i`. -/
def natToStrAux (fuel : Nat) (n : Nat) (acc : List Char) : List Char :=
  match fuel with
  | 0 => acc
  | fuel + 1 =>
    let d : Char := Char.ofNat (48 + n % 10)
    if n < 10 then d :: acc else natToStrAux fuel (n / 10) (d :: acc)

/-- Number of decimal digits (proof-side companion of `natToStrAux`). -/
def digitLen (n : Nat) : Nat :=
  if n < 10 then 1 else digitLen (n / 10) + 1
termination_by n
decreasing_by exact Nat.div_lt_self (by omega) (by omega)

/-- Embedding of Python's `str(i)`. -/
def natToStr (n : Nat) : String := ⟨natToStrAux (n + 1) n []⟩

/-- Reading a decimal digit list back into a number. -/
def decStep (a : Nat) (c : Char) : Nat := a * 10 + (c.toNat - 48)

/-! ## `pathlib` fragment: `Path(filename).stem` / `.suffix`

CPython's `pathlib`: the name is the final path component (trailing slashes
dropped); the suffix is `name[i:]` for `i` the index of the last dot when
`0 < i < len(name) - 1`, else empty; the stem is the rest of the name. -/

/-- Final path component of a POSIX path, as a character list. -/
def pyNameL (cs : List Char) : List Char :=
  ((cs.reverse.dropWhile (· = '/')).takeWhile (· ≠ '/')).reverse

/-- Index of the last `'.'` of a character list, if any. -/
def lastDotIdx (cs : List Char) : Option Nat :=
  match cs.reverse.findIdx? (· = '.') with
  | none => none
  | some k => some (cs.length - 1 - k)

/-- `Path(filename).stem`. -/
def pathStem (s : String) : String :=
  let name := pyNameL s.data
  match lastDotIdx name with
  | some i => if 0 < i ∧ i < name.length - 1 then ⟨name.take i⟩ else ⟨name⟩
  | none => ⟨name⟩

/-- `Path(filename).suffix`. -/
def pathSuffix (s : String) : String :=
  let name := pyNameL s.data
  match lastDotIdx name with
  | some i => if 0 < i ∧ i < name.length - 1 then ⟨name.drop i⟩ else ""
  | none => ""

/-! ## `unique_path` (shared by all three pipeline scripts)

`unique_path(dirpath, filename)` splits `filename` into stem and suffix and
probes `stem+ext`, `stem-1+ext`, `stem-2+ext`, … against the directory until a
non-existing name is found.  The directory is modelled as the snapshot of
filenames existing in it; the unbounded `while` loop is rendered with fuel
`dir.length + 1`, which the theorems below prove sufficient. -/

/-- The `i`-th candidate name probed by `unique_path`: the bare name for
`i = 0`, then `stem-i.ext`. -/
def candidateName (base ext : String) : Nat → String
  | 0 => base ++ ext
  | k + 1 => base ++ "-" ++ natToStr (k + 1) ++ ext

/-- The `while candidate.exists()` loop of `unique_path`. -/
def uniqueLoop (dir : List String) (base ext : String) : Nat → Nat → String
  | i, 0 => candidateName base ext i
  | i, fuel + 1 =>
    if candidateName base ext i ∈ dir then uniqueLoop dir base ext (i + 1) fuel
    else candidateName base ext i

/-- `unique_path(dirpath, filename)`, returning the chosen filename (the
Python function returns `dirpath / name`; the directory part is constant). -/
def unique_path (dir : List String) (filename : String) : String :=
  uniqueLoop dir (pathStem filename) (pathSuffix filename) 0 (dir.length + 1)

/-! ## Small string helpers shared by the translations -/

/-- Everything after the first occurrence of `c`, or the whole list when `c`
is absent: Python `s.split(c, 1)[-1]`. -/
def afterFirstCh (c : Char) (cs : List Char) : List Char :=
  if cs.contains c then (cs.dropWhile (· ≠ c)).tail else cs

/-- Strip any of the characters in `set` from both ends:
Python `s.strip("<set>")`. -/
def stripChars (set : List Char) (cs : List Char) : List Char :=
  ((cs.dropWhile (set.contains ·)).reverse.dropWhile (set.contains ·)).reverse

/-- Strip any of the characters in `set` from the right end:
Python `s.rstrip("<set>")`. -/
def rstripChars (set : List Char) (cs : List Char) : List Char :=
  (cs.reverse.dropWhile (set.contains ·)).reverse

/-- Replace every maximal run of characters satisfying `bad` by the single
character `rep` (the effect of `re.sub("[<bad>]+", rep, s)`), written as a
structural fold so that concrete instances reduce. -/
def replaceRunsAux (bad : Char → Bool) (rep : Char) : List Char → Bool → List Char
  | [], _ => []
  | c :: rest, inRun =>
    if bad c then
      if inRun then replaceRunsAux bad rep rest true
      else rep :: replaceRunsAux bad rep rest true
    else c :: replaceRunsAux bad rep rest false

def replaceRuns (bad : Char → Bool) (rep : Char) (cs : List Char) : List Char :=
  replaceRunsAux bad rep cs false

/-! ## `mimetypes.guess_extension`

Modelled by CPython's built-in default type map (`mimetypes._types_map`),
restricted to the media types this development exercises, with the
preferred-extension ordering of current CPython (3.11+): `image/jpeg` →
`.jpg` (older versions answered `.jpe`; all three jpeg variants are
normalized identically by every caller in the repository) and `image/tiff`
→ `.tiff`.  `guess_extension` lower-cases its argument before the lookup. -/
def mimetypesTable : List (String × String) :=
  [("image/jpeg", ".jpg"), ("image/png", ".png"), ("image/gif", ".gif"),
   ("image/webp", ".webp"), ("image/bmp", ".bmp"), ("image/tiff", ".tiff"),
   ("image/svg+xml", ".svg"), ("image/vnd.microsoft.icon", ".ico"),
   ("text/html", ".html"), ("text/plain", ".txt"), ("text/css", ".css"),
   ("text/csv", ".csv"), ("application/pdf", ".pdf"),
   ("application/json", ".json"), ("application/zip", ".zip"),
   ("application/octet-stream", ".bin")]

def mimetypes_guess_extension (ct : String) : Option String :=
  (mimetypesTable.find? (fun p => p.1 = lowerS ct)).map (·.2)

/-- `guess_ext_from_content_type` as written in `downloadimages.py`
(lines 34–50): the table lookup on the parameter-stripped type, jpeg-variant
normalization, then a fallback that recognizes only a fixed set of `image/*`
subtypes and defaults to `.jpg`. -/
def guess_ext_from_content_type (ct : Option String) : String :=
  match ct with
  | none => ".jpg"
  | some c =>
    if c = "" then ".jpg"
    else
      match mimetypes_guess_extension (pyStrip ⟨c.data.takeWhile (· ≠ ';')⟩) with
      | some ext =>
        if ext = ".jpe" ∨ ext = ".jpeg" ∨ ext = ".jpg" then ".jpg" else ext
      | none =>
        if "image/".data.isPrefixOf c.data then
          let subtype : String := ⟨afterFirstCh '/' c.data⟩
          if subtype = "jpeg" ∨ subtype = "jpg" then ".jpg"
          else if subtype = "png" ∨ subtype = "gif" ∨ subtype = "webp"
                  ∨ subtype = "bmp" ∨ subtype = "tiff" then
            "." ++ subtype
          else ".jpg"
        else ".jpg"

/-- `guess_ext_from_content_type` as written (identically) in
`downloadimagesasjpg.py` (lines 35–48) and `downloadimagesasjpgforce.py`
(lines 43–56): same table lookup, but the `image/*` fallback returns
`"." + subtype` for every unrecognized subtype. -/
def guess_ext_from_content_type_conv (ct : Option String) : String :=
  match ct with
  | none => ".jpg"
  | some c =>
    if c = "" then ".jpg"
    else
      match mimetypes_guess_extension (pyStrip ⟨c.data.takeWhile (· ≠ ';')⟩) with
      | some ext =>
        if ext = ".jpe" ∨ ext = ".jpeg" ∨ ext = ".jpg" then ".jpg" else ext
      | none =>
        if "image/".data.isPrefixOf c.data then
          let subtype : String := ⟨afterFirstCh '/' c.data⟩
          if subtype = "jpeg" ∨ subtype = "jpg" then ".jpg" else "." ++ subtype
        else ".jpg"

/-! ## The two folder/file-name sanitizers -/

/-- ASCII fragment of the regex class `\w` (the development evaluates the
sanitizers on ASCII strings). -/
def isWordChar (c : Char) : Bool := c.isAlphanum ∨ c = '_'

/-- `sanitize_filename`, written identically in all three pipeline scripts:
`re.sub(r"[^\w\-.]+", "_", s).strip("._")`, with literal fallback `"file"`. -/
def sanitize_filename (s : String) : String :=
  let cs := replaceRuns (fun c => ¬ (isWordChar c ∨ c = '-' ∨ c = '.')) '_' s.data
  let cs := stripChars ['.', '_'] cs
  if cs = [] then "file" else ⟨cs⟩

/-- The character class `[A-Za-z0-9\-_ .]` of `sanitize_name`. -/
def isSafeNameChar (c : Char) : Bool :=
  c.isAlphanum ∨ c = '-' ∨ c = '_' ∨ c = ' ' ∨ c = '.'

/-- `sanitize_name` from `copy_images_to_events.py` (lines 21–53), with
`max_len = 80` (its default).  `None` is modelled as `Option.none`; the NFKD
normalization followed by `encode("ascii", "ignore")` is modelled as
dropping non-ASCII characters (exact on the ASCII strings evaluated here). -/
def sanitize_name (name : Option String) : String :=
  let s := match name with | none => "" | some s => s
  let cs := s.data.filter (fun c => c.toNat < 128)
  let cs := cs.map (fun c => if isSafeNameChar c then c else '_')
  let cs := replaceRuns (fun c => c = ' ' ∨ c = '.') '_' cs
  let cs := replaceRuns (fun c => c = '_') '_' cs
  let cs := stripChars ['_', '-'] cs
  let cs := if 80 < cs.length then rstripChars ['_', '-'] (cs.take 80) else cs
  if cs = [] then "unknown" else ⟨cs⟩

/-- The input-acceptance check of `copy_images_to_events.py`'s `main`
(lines 81–88): build `cols = {c.lower(): c}` over the table's columns and
require both `"image_name"` and `"event"` to be present as lower-cased
column names; otherwise `sys.exit(1)` fires before any row is processed. -/
def acceptsColumns (columns : List String) : Bool :=
  let lowered := columns.map lowerS
  lowered.contains "image_name" ∧ lowered.contains "event"

/-! ## `urllib.parse.urlsplit` fragment

The pipeline uses `urlparse(url).scheme` (record classification) and
`urlparse(url).path` (name guessing).  The model follows CPython's
`urlsplit`: a scheme is split off when the text before the first `:` is a
letter followed by letters/digits/`+`/`-`/`.`; a netloc follows `//` up to
the next `/`, `?` or `#`; the fragment is cut at the first `#`, the query at
the first `?`. -/

def isSchemeChar (c : Char) : Bool :=
  isAsciiAlpha c ∨ isAsciiDigit c ∨ c = '+' ∨ c = '-' ∨ c = '.'

/-- Split off the URL scheme: returns `(scheme, rest)`. -/
def splitScheme (cs : List Char) : String × List Char :=
  match cs.findIdx? (· = ':') with
  | none => ("", cs)
  | some i =>
    if ((match cs.head? with | some c => isAsciiAlpha c | none => false)
        && ((cs.take i).drop 1).all isSchemeChar : Bool) then
      (lowerS ⟨cs.take i⟩, cs.drop (i + 1))
    else ("", cs)

/-- `(scheme, netloc, path)` of `urlsplit`. -/
def urlsplit (url : String) : String × String × String :=
  let sr := splitScheme url.data
  let rest :=
    if "//".data.isPrefixOf sr.2 then
      let rest2 := sr.2.drop 2
      rest2.drop (rest2.takeWhile (fun c => c ≠ '/' ∧ c ≠ '?' ∧ c ≠ '#')).length
    else sr.2
  let netloc :=
    if "//".data.isPrefixOf sr.2 then
      (sr.2.drop 2).takeWhile (fun c => c ≠ '/' ∧ c ≠ '?' ∧ c ≠ '#')
    else []
  let beforeFrag := rest.takeWhile (· ≠ '#')
  let path := beforeFrag.takeWhile (· ≠ '?')
  (sr.1, ⟨netloc⟩, ⟨path⟩)

/-- `os.path.basename`: everything after the last `/`. -/
def osBasename (cs : List Char) : List Char :=
  (cs.reverse.takeWhile (· ≠ '/')).reverse

/-- `guess_name_and_ext_from_url`, written identically in all three pipeline
scripts: basename of the URL path, query/fragment junk stripped, split at the
last dot, jpeg-variant normalization, defaults `("download", ".jpg")`. -/
def guess_name_and_ext_from_url (url : String) : String × String :=
  let name := osBasename (urlsplit url).2.2.data
  if name = [] then ("download", ".jpg")
  else
    let name := name.takeWhile (fun c => c ≠ '?' ∧ c ≠ '#')
    match lastDotIdx name with
    | none => (⟨name⟩, ".jpg")
    | some i =>
      let stem := name.take i
      let ext := lowerL (name.drop (i + 1))
      let ext := if ext = "jpeg".data ∨ ext = "jpe".data ∨ ext = "jpg".data
        then "jpg".data else ext
      ((if stem = [] then "download" else ⟨stem⟩), "." ++ ⟨ext⟩)

/-! ## The HTTP fetch (`download_http_image`)

One GET attempt is modelled by an oracle `Nat → Attempt`: the `k`-th attempt
either raises inside `requests.get` (`transportError`), or produces a
response with an HTTP status and `Content-Type` header; `bodyOk = false`
means an exception while streaming the body to disk — the destination file
was already created by `open(out_path, "wb")` and is left behind, and the
attempt counts as failed.  `raise_for_status` raises exactly for statuses
400–599. -/

inductive Attempt
  | transportError
  | response (status : Nat) (contentType : Option String) (bodyOk : Bool)

def raiseForStatus (status : Nat) : Bool := 400 ≤ status ∧ status < 600

/-- The extension-precedence computation of `download_http_image`
(`downloadimages.py` lines 147–151), over the `guess` function of the
variant at hand: content-type extension first (`or ext_from_url` when the
guess is empty), then the URL-implied extension wins whenever it is
non-empty and not the default `.jpg`. -/
def chooseExt (guess : Option String → String) (ct : Option String)
    (extFromUrl : String) : String :=
  let ext := guess ct
  let ext := if ext = "" then extFromUrl else ext
  if extFromUrl ≠ "" ∧ extFromUrl ≠ ".jpg" then extFromUrl else ext

structure DownloadResult where
  savedName : String
  attemptsMade : Nat
  written : List String
deriving DecidableEq, Repr

/-- The stem chosen by `download_http_image`: the sanitized URL-derived stem
unless it is generic, else `img_` + first 10 hex chars of the URL's SHA-1
(the digest is an opaque input `urlHash`). -/
def httpStem (url urlHash : String) : String :=
  let stem := sanitize_filename (guess_name_and_ext_from_url url).1
  if lowerS stem = "" ∨ lowerS stem = "download" ∨ lowerS stem = "image"
      ∨ lowerS stem = "img"
  then "img_" ++ ⟨urlHash.data.take 10⟩ else stem

/-- The retry loop of `download_http_image`; `k` counts attempts already
made, `dir` is the live directory snapshot (files written by failed
streaming attempts exist and are seen by later `unique_path` calls). -/
def downloadLoop (guess : Option String → String) (attempts : Nat → Attempt)
    (stem extUrl : String) : Nat → Nat → List String → List String → DownloadResult
  | k, 0, _, written => { savedName := "", attemptsMade := k, written := written }
  | k, rem + 1, dir, written =>
    match attempts k with
    | .transportError => downloadLoop guess attempts stem extUrl (k + 1) rem dir written
    | .response status ct bodyOk =>
      if raiseForStatus status then
        downloadLoop guess attempts stem extUrl (k + 1) rem dir written
      else
        let ext := chooseExt guess ct extUrl
        let out := unique_path dir (stem ++ ext)
        if bodyOk then
          { savedName := out, attemptsMade := k + 1, written := written ++ [out] }
        else
          downloadLoop guess attempts stem extUrl (k + 1) rem
            (dir ++ [out]) (written ++ [out])

/-- `download_http_image` of `downloadimages.py` (lines 127–164); the
variants in the two converter scripts differ only in their
`guess_ext_from_content_type` and in request headers. -/
def download_http_image (attempts : Nat → Attempt) (dir : List String)
    (url urlHash : String) (retries : Nat) : DownloadResult :=
  downloadLoop guess_ext_from_content_type attempts (httpStem url urlHash)
    (guess_name_and_ext_from_url url).2 0 retries dir []

/-! ## `save_data_url` and the per-record loop of `downloadimages.py` -/

/-- `save_data_url` (written equivalently in all three scripts): split at the
first comma (malformed without one → empty result), parse the
`data:<mediaType>(;base64)?` header, name the file from the content type and
the URL hash, write the decoded payload.  `writeOk = false` models a
`base64` decode error or a failed `write_bytes` — both caught, yielding
an empty result. -/
def save_data_url (dir : List String) (writeOk : Bool)
    (dataUrl urlHash : String) : String :=
  if ¬ dataUrl.data.contains ',' then ""
  else
    let header := dataUrl.data.takeWhile (· ≠ ',')
    let ctRaw : Option (List Char) :=
      if "data:".data.isPrefixOf header then
        let mid := header.drop 5
        some (if ";base64".data.isSuffixOf mid then mid.take (mid.length - 7) else mid)
      else none
    let contentType : Option String :=
      match ctRaw with
      | none => none
      | some cs => let s := pyStrip ⟨cs⟩; if s = "" then none else some s
    let ext := guess_ext_from_content_type contentType
    let stem : String := "img_" ++ ⟨urlHash.data.take 10⟩
    let out := unique_path dir (sanitize_filename stem ++ ext)
    if writeOk then out else ""

/-- Per-record oracles: outcomes of the external calls a single record can
make.  `localCopyOk = false` models an `OSError` from `p.read_bytes()` or
`dest.write_bytes(...)` in the local-file branch. -/
structure RecordEnv where
  attempts : Nat → Attempt
  dataWriteOk : Bool
  localExists : Bool
  localCopyOk : Bool
  urlHash : String

/-- One iteration of `process_csv`'s record loop in `downloadimages.py`
(lines 178–203), as an `Except`: `.error ()` is an exception escaping the
iteration (there is no handler around the loop body).  On success it returns
the `image_name` value together with the files now existing in `images_dir`. -/
def processRecord (env : RecordEnv) (dir : List String) (retries : Nat)
    (urlField : Option String) : Except Unit (String × List String) :=
  let url := pyStrip (match urlField with | none => "" | some s => s)
  if url = "" then .ok ("", dir)
  else if "data:".data.isPrefixOf url.data then
    let name := save_data_url dir env.dataWriteOk url env.urlHash
    .ok (name, if name = "" then dir else dir ++ [name])
  else
    let scheme := (splitScheme url.data).1
    if scheme = "http" ∨ scheme = "https" then
      let r := download_http_image env.attempts dir url env.urlHash retries
      .ok (r.savedName, dir ++ r.written)
    else if env.localExists then
      let ext := if pathSuffix url = "" then ".jpg" else pathSuffix url
      let stem : String := "img_" ++ ⟨env.urlHash.data.take 10⟩
      let dest := unique_path dir (sanitize_filename stem ++ ext)
      if env.localCopyOk then .ok (dest, dir ++ [dest]) else .error ()
    else
      .ok ("", dir)

/-- The record loop of `process_csv` (`downloadimages.py`): records are
processed in order; an exception escaping one record's body aborts the whole
loop (`Except.error`), otherwise the per-record `image_name` values are
collected. -/
def processCsv (dir : List String) (retries : Nat) :
    List (Option String × RecordEnv) → Except Unit (List String)
  | [] => .ok []
  | (url, env) :: rest =>
    match processRecord env dir retries url with
    | .error e => .error e
    | .ok (name, dir2) =>
      match processCsv dir2 retries rest with
      | .error e => .error e
      | .ok names => .ok (name :: names)

/-! ## Format normalization

PIL is modelled at the boundary: a successful `Image.open` yields the
decoded image's attributes (`ImgInfo`); `none` models the decode failing
(`UnidentifiedImageError` or any other exception from `open`).  What the
conversion code then does to the decoded pixel data is recorded as an
ordered event trace: `exifTranspose` is `ImageOps.exif_transpose(im)`,
`convertMode`/`compositeWhite` are the mode coercions and the compositing
onto a white background, `save` is a completed `im.save(dst_path, ...)`, `saveFail` an
encode raising after the destination file was opened, and
`unlinkDone`/`unlinkFail` the outcome of `src_path.unlink()`. -/

def upperChar (c : Char) : Char :=
  if 97 ≤ c.toNat ∧ c.toNat ≤ 122 then Char.ofNat (c.toNat - 32) else c

def upperS (s : String) : String := ⟨s.data.map upperChar⟩

structure ImgInfo where
  mode : String
  animated : Bool
  transparency : Bool
  bands : List String
deriving DecidableEq, Repr

inductive ConvEv
  | seekFirst
  | exifTranspose
  | convertMode (m : String)
  | compositeWhite
  | save (dst : String) (fmt : String)
  | saveFail (dst : String)
  | unlinkDone (src : String)
  | unlinkFail (src : String)
deriving DecidableEq, Repr

/-- `im.mode in ("RGBA", "LA") or (im.mode == "P" and "transparency" in im.info)`. -/
def alphaOrPalette (im : ImgInfo) : Bool :=
  im.mode = "RGBA" ∨ im.mode = "LA" ∨ (im.mode = "P" ∧ im.transparency)

/-- `_save_rgb_with_background` of `downloadimagesasjpgforce.py`
(lines 139–158) as an event trace: EXIF-orientation correction first in both
branches, then the target-specific mode handling, then the encode. -/
def saveRgbEvents (im : ImgInfo) (dst fmt : String) (encodeOk : Bool) : List ConvEv :=
  let fmtU := upperS fmt
  if fmtU = "JPG" ∨ fmtU = "JPEG" then
    [ConvEv.exifTranspose] ++
    (if alphaOrPalette im then [ConvEv.convertMode "RGBA", ConvEv.compositeWhite]
     else [ConvEv.convertMode "RGB"]) ++
    (if encodeOk then [ConvEv.save dst "JPEG"] else [ConvEv.saveFail dst])
  else
    [ConvEv.exifTranspose] ++
    (if im.mode ≠ "RGB" ∧ im.mode ≠ "RGBA" then
      [ConvEv.convertMode (if im.bands.contains "A" then "RGBA" else "RGB")]
     else []) ++
    (if encodeOk then [ConvEv.save dst fmtU] else [ConvEv.saveFail dst])

structure ConvResult where
  name : String
  events : List ConvEv
deriving DecidableEq, Repr

/-- `convert_format` of `downloadimagesasjpgforce.py` (lines 160–188).
Absent source → unchanged; decode failure → unchanged (warning); encode
failure → unchanged (warning), exception caught; on success delete the
source (its failure swallowed) and report the new name.  The function is
total: no exception escapes it. -/
def convert_format (dir : List String) (decode : Option ImgInfo)
    (encodeOk unlinkOk : Bool) (filename target_ext : String) : ConvResult :=
  if filename ∉ dir then ⟨filename, []⟩
  else
    let tgt : String := ⟨(lowerS target_ext).data.dropWhile (· = '.')⟩
    let dst := unique_path dir (pathStem filename ++ "." ++ tgt)
    match decode with
    | none => ⟨filename, []⟩
    | some im =>
      let evs := (if im.animated then [ConvEv.seekFirst] else [])
        ++ saveRgbEvents im dst tgt encodeOk
      if encodeOk then
        ⟨dst, evs ++ [if unlinkOk then ConvEv.unlinkDone filename
                      else ConvEv.unlinkFail filename]⟩
      else ⟨filename, evs⟩

/-- The mode handling and encode of `convert_if_webp` (the body of its
`with Image.open(...)` block after first-frame selection, lines 161–176 of
`downloadimagesasjpg.py`): note the absence of any EXIF-orientation step. -/
def webpBodyEvents (im : ImgInfo) (dst tgt : String) (encodeOk : Bool) : List ConvEv :=
  if tgt = "jpg" ∨ tgt = "jpeg" then
    (if alphaOrPalette im then [ConvEv.convertMode "RGBA", ConvEv.compositeWhite]
     else [ConvEv.convertMode "RGB"]) ++
    (if encodeOk then [ConvEv.save dst "JPEG"] else [ConvEv.saveFail dst])
  else
    (if im.mode ≠ "RGB" ∧ im.mode ≠ "RGBA" then
      [ConvEv.convertMode (if im.bands.contains "A" then "RGBA" else "RGB")]
     else []) ++
    (if encodeOk then [ConvEv.save dst tgt] else [ConvEv.saveFail dst])

/-- `convert_if_webp` of `downloadimagesasjpg.py` (lines 138–190): the same
control flow as `convert_format` but only for `.webp` sources and with NO
EXIF-orientation correction anywhere in its pipeline. -/
def convert_if_webp (dir : List String) (decode : Option ImgInfo)
    (encodeOk unlinkOk : Bool) (filename target_ext : String) : ConvResult :=
  if ¬ ".webp".data.isSuffixOf (lowerS filename).data then ⟨filename, []⟩
  else if filename ∉ dir then ⟨filename, []⟩
  else
    let tgt : String := ⟨(lowerS target_ext).data.dropWhile (· = '.')⟩
    let dst := unique_path dir (pathStem filename ++ "." ++ tgt)
    match decode with
    | none => ⟨filename, []⟩
    | some im =>
      let evs := (if im.animated then [ConvEv.seekFirst] else [])
        ++ webpBodyEvents im dst tgt encodeOk
      if encodeOk then
        ⟨dst, evs ++ [if unlinkOk then ConvEv.unlinkDone filename
                      else ConvEv.unlinkFail filename]⟩
      else ⟨filename, evs⟩

/-- `maybe_convert_by_ext` of `downloadimagesasjpgforce.py` (lines 190–209):
force-format first, then the WEBP policy, then the HEIC/HEIF policy guarded
by the availability of `pillow_heif`. -/
def maybe_convert_by_ext (dir : List String) (decode : Option ImgInfo)
    (encodeOk unlinkOk heifAvailable : Bool)
    (filename webpTo heicTo forceFmt : String) : ConvResult :=
  if forceFmt ≠ "" then convert_format dir decode encodeOk unlinkOk filename forceFmt
  else if ".webp".data.isSuffixOf (lowerS filename).data ∧ webpTo ≠ "" then
    convert_format dir decode encodeOk unlinkOk filename webpTo
  else if (".heic".data.isSuffixOf (lowerS filename).data
      ∨ ".heif".data.isSuffixOf (lowerS filename).data) ∧ heicTo ≠ "" then
    if ¬ heifAvailable then ⟨filename, []⟩
    else convert_format dir decode encodeOk unlinkOk filename heicTo
  else ⟨filename, []⟩

/-- Directory snapshot after a conversion's filesystem events (a failed
encode leaves the opened destination file behind; a deleted source
disappears). -/
def applyConvEvents (dir : List String) : List ConvEv → List String
  | [] => dir
  | ConvEv.save d _ :: rest => applyConvEvents (dir ++ [d]) rest
  | ConvEv.saveFail d :: rest => applyConvEvents (dir ++ [d]) rest
  | ConvEv.unlinkDone s :: rest => applyConvEvents (dir.erase s) rest
  | _ :: rest => applyConvEvents dir rest

/-- Conversion-phase oracles for the force pipeline. -/
structure ConvEnv where
  decode : Option ImgInfo
  encodeOk : Bool
  unlinkOk : Bool
  heifAvailable : Bool

/-- `download_http_image` as written in the two converter scripts (same loop,
their own `guess_ext_from_content_type`). -/
def download_http_image_conv (attempts : Nat → Attempt) (dir : List String)
    (url urlHash : String) (retries : Nat) : DownloadResult :=
  downloadLoop guess_ext_from_content_type_conv attempts (httpStem url urlHash)
    (guess_name_and_ext_from_url url).2 0 retries dir []

/-- One iteration of `process_csv`'s record loop in
`downloadimagesasjpgforce.py` (lines 222–254): the same fetch branches as
`downloadimages.py` (the local-copy branch equally has no exception
handler), followed by `maybe_convert_by_ext` when a name was produced. -/
def processRecordForce (env : RecordEnv) (cenv : ConvEnv) (dir : List String)
    (retries : Nat) (webpTo heicTo forceFmt : String)
    (urlField : Option String) : Except Unit (String × List String) :=
  let url := pyStrip (match urlField with | none => "" | some s => s)
  let fetched : Except Unit (String × List String) :=
    if url = "" then .ok ("", dir)
    else if "data:".data.isPrefixOf url.data then
      let name := save_data_url dir env.dataWriteOk url env.urlHash
      .ok (name, if name = "" then dir else dir ++ [name])
    else
      let scheme := (splitScheme url.data).1
      if scheme = "http" ∨ scheme = "https" then
        let r := download_http_image_conv env.attempts dir url env.urlHash retries
        .ok (r.savedName, dir ++ r.written)
      else if env.localExists then
        let ext := if pathSuffix url = "" then ".jpg" else pathSuffix url
        let stem : String := "img_" ++ ⟨env.urlHash.data.take 10⟩
        let dest := unique_path dir (sanitize_filename stem ++ ext)
        if env.localCopyOk then .ok (dest, dir ++ [dest]) else .error ()
      else .ok ("", dir)
  match fetched with
  | .error e => .error e
  | .ok (name, dir2) =>
    if name = "" then .ok (name, dir2)
    else
      let r := maybe_convert_by_ext dir2 cenv.decode cenv.encodeOk cenv.unlinkOk
        cenv.heifAvailable name webpTo heicTo forceFmt
      .ok (r.name, applyConvEvents dir2 r.events)

/-! ## Trace scanners used by the theorems -/

/-- `scanTBS evs seen = true` iff every encode event (`save` or `saveFail`)
in `evs` is strictly preceded by an `exifTranspose` event (`seen` says one
was already emitted). -/
def scanTBS : List ConvEv → Bool → Bool
  | [], _ => true
  | ConvEv.exifTranspose :: rest, _ => scanTBS rest true
  | ConvEv.save _ _ :: rest, seen => seen && scanTBS rest seen
  | ConvEv.saveFail _ :: rest, seen => seen && scanTBS rest seen
  | _ :: rest, seen => scanTBS rest seen

/-- `scanUAS evs seen = true` iff every deletion attempt (`unlinkDone` or
`unlinkFail`) in `evs` is strictly preceded by a completed destination write
(`save`). -/
def scanUAS : List ConvEv → Bool → Bool
  | [], _ => true
  | ConvEv.save _ _ :: rest, _ => scanUAS rest true
  | ConvEv.unlinkDone _ :: rest, seen => seen && scanUAS rest seen
  | ConvEv.unlinkFail _ :: rest, seen => seen && scanUAS rest seen
  | _ :: rest, seen => scanUAS rest seen

/-- An attempt that fails before the body write begins: `requests.get`
raising, or `raise_for_status` firing on a 4xx/5xx status. -/
def attemptRaisesEarly : Attempt → Bool
  | .transportError => true
  | .response s _ _ => raiseForStatus s

/-- `true` on `Except.ok`: the loop body completed without an exception. -/
def exceptOk {ε α : Type} : Except ε α → Bool
  | .ok _ => true
  | .error _ => false

/-! ## Helper lemmas -/

theorem digitLen_le_succ (n : Nat) : digitLen n ≤ n + 1 := by
  induction n using Nat.strong_induction_on with
  | _ n ih =>
    rw [digitLen]
    by_cases h : n < 10
    · simp [h]
    · simp only [h, if_false]
      have hd : n / 10 < n := Nat.div_lt_self (by omega) (by omega)
      have := ih (n / 10) hd
      omega


theorem toNat_ofNat_digit (m : Nat) (h : m < 10) :
    (Char.ofNat (48 + m)).toNat = 48 + m := by
  interval_cases m <;> decide

theorem foldl_natToStrAux (n : Nat) : ∀ (fuel : Nat), digitLen n ≤ fuel →
    ∀ (acc : List Char) (a : Nat),
    (natToStrAux fuel n acc).foldl decStep a
      = acc.foldl decStep (a * 10 ^ digitLen n + n) := by
  induction n using Nat.strong_induction_on with
  | _ n ih =>
    intro fuel hfuel acc a
    rw [digitLen] at hfuel ⊢
    by_cases h : n < 10
    · simp only [h, if_true] at hfuel ⊢
      obtain ⟨f, rfl⟩ : ∃ f, fuel = f + 1 := ⟨fuel - 1, by omega⟩
      simp only [natToStrAux, h, if_true, List.foldl_cons]
      have : decStep a (Char.ofNat (48 + n % 10)) = a * 10 + n := by
        simp only [decStep, toNat_ofNat_digit (n % 10) (Nat.mod_lt _ (by omega))]
        omega
      rw [this]
      norm_num
    · simp only [h, if_false] at hfuel ⊢
      obtain ⟨f, rfl⟩ : ∃ f, fuel = f + 1 := ⟨fuel - 1, by omega⟩
      simp only [natToStrAux, h, if_false]
      have hd : n / 10 < n := Nat.div_lt_self (by omega) (by omega)
      rw [ih (n / 10) hd f (by omega)]
      simp only [List.foldl_cons]
      have hc : decStep (a * 10 ^ digitLen (n / 10) + n / 10)
          (Char.ofNat (48 + n % 10)) = a * 10 ^ (digitLen (n / 10) + 1) + n := by
        simp only [decStep, toNat_ofNat_digit (n % 10) (Nat.mod_lt _ (by omega))]
        have : a * 10 ^ (digitLen (n / 10) + 1) = a * 10 ^ digitLen (n / 10) * 10 := by
          ring
        rw [this]
        omega
      rw [hc]

theorem decVal_natToStr (n : Nat) : (natToStr n).data.foldl decStep 0 = n := by
  have h := foldl_natToStrAux n (n + 1) (by simpa using digitLen_le_succ n) [] 0
  simpa [natToStr] using h

theorem natToStr_injective : Function.Injective natToStr := by
  intro m n h
  have : (natToStr m).data.foldl decStep 0 = (natToStr n).data.foldl decStep 0 := by
    rw [h]
  rwa [decVal_natToStr, decVal_natToStr] at this

theorem natToStrAux_length_le (fuel : Nat) : ∀ (n : Nat) (acc : List Char),
    acc.length ≤ (natToStrAux fuel n acc).length := by
  induction fuel with
  | zero => intro n acc; simp [natToStrAux]
  | succ f ih =>
    intro n acc
    simp only [natToStrAux]
    by_cases h : n < 10
    · simp [h]
    · simp only [h, if_false]
      calc acc.length ≤ (Char.ofNat (48 + n % 10) :: acc).length := by simp
        _ ≤ _ := ih (n / 10) _

theorem natToStr_length_pos (n : Nat) : 1 ≤ (natToStr n).data.length := by
  show 1 ≤ (natToStrAux (n + 1) n []).length
  simp only [natToStrAux]
  by_cases h : n < 10
  · simp [h]
  · simp only [h, if_false]
    calc 1 = ([Char.ofNat (48 + n % 10)] : List Char).length := by simp
      _ ≤ _ := natToStrAux_length_le n _ _


theorem candidateName_injective (base ext : String) :
    Function.Injective (candidateName base ext) := by
  have hdash : ("-" : String).data = ['-'] := rfl
  have hlen : ∀ k : Nat, (candidateName base ext (k + 1)).data.length
      = base.data.length + 1 + (natToStr (k + 1)).data.length + ext.data.length := by
    intro k
    simp only [candidateName, String.data_append, hdash, List.length_append]
    simp
    try omega
  have hlen0 : (candidateName base ext 0).data.length
      = base.data.length + ext.data.length := by
    simp [candidateName, String.data_append]
  intro j k h
  match j, k with
  | 0, 0 => rfl
  | 0, k + 1 =>
    exfalso
    have := congrArg (fun s => s.data.length) h
    simp only [hlen0, hlen] at this
    have := natToStr_length_pos (k + 1)
    omega
  | j + 1, 0 =>
    exfalso
    have := congrArg (fun s => s.data.length) h
    simp only [hlen0, hlen] at this
    have := natToStr_length_pos (j + 1)
    omega
  | j + 1, k + 1 =>
    have hd := congrArg String.data h
    simp only [candidateName, String.data_append, hdash, List.append_assoc] at hd
    have h1 := List.append_cancel_left hd
    simp only [List.cons_append, List.nil_append] at h1
    have h2 := (List.cons.injEq _ _ _ _).mp h1 |>.2
    have h3 := List.append_cancel_right h2
    have h4 : natToStr (j + 1) = natToStr (k + 1) := by
      cases hj : natToStr (j + 1) with
      | mk d1 =>
        cases hk : natToStr (k + 1) with
        | mk d2 =>
          rw [hj, hk] at h3
          simp only at h3
          rw [h3]
    have := natToStr_injective h4
    omega

theorem uniqueLoop_eq (dir : List String) (base ext : String) :
    ∀ (fuel i k : Nat), i ≤ k → k - i ≤ fuel →
    candidateName base ext k ∉ dir →
    (∀ j, i ≤ j → j < k → candidateName base ext j ∈ dir) →
    uniqueLoop dir base ext i fuel = candidateName base ext k := by
  intro fuel
  induction fuel with
  | zero =>
    intro i k hik hki _ _
    have : i = k := by omega
    subst this
    rfl
  | succ f ih =>
    intro i k hik hki hfree hbusy
    simp only [uniqueLoop]
    by_cases hmem : candidateName base ext i ∈ dir
    · have hne : i ≠ k := by
        intro h; subst h; exact hfree hmem
      simp only [hmem, if_true]
      exact ih (i + 1) k (by omega) (by omega) hfree
        (fun j h1 h2 => hbusy j (by omega) h2)
    · have : i = k := by
        by_contra hne
        exact hmem (hbusy i (le_refl i) (by omega))
      subst this
      simp [hmem]

theorem exists_fresh (dir : List String) (base ext : String) (i : Nat) :
    ∃ k, i ≤ k ∧ k ≤ i + dir.length ∧ candidateName base ext k ∉ dir := by
  by_contra hall
  push_neg at hall
  have hmem : ∀ j : Fin (dir.length + 1),
      candidateName base ext (i + j.val) ∈ dir.toFinset := by
    intro j
    rw [List.mem_toFinset]
    exact hall (i + j.val) (by omega) (by omega)
  have hinj : Function.Injective
      (fun j : Fin (dir.length + 1) => candidateName base ext (i + j.val)) := by
    intro a b hab
    have := candidateName_injective base ext hab
    exact Fin.ext (by omega)
  have hcard : (Finset.univ : Finset (Fin (dir.length + 1))).card ≤ dir.toFinset.card :=
    Finset.card_le_card_of_injOn
      (fun j : Fin (dir.length + 1) => candidateName base ext (i + j.val))
      (fun j _ => hmem j) (Function.Injective.injOn hinj)
  simp only [Finset.card_univ, Fintype.card_fin] at hcard
  have := dir.toFinset_card_le
  omega

/-- `unique_path` returns the first candidate, in probe order, that does not
exist in the directory snapshot. -/
theorem unique_path_least (dir : List String) (filename : String) :
    ∃ k, unique_path dir filename
          = candidateName (pathStem filename) (pathSuffix filename) k
      ∧ candidateName (pathStem filename) (pathSuffix filename) k ∉ dir
      ∧ ∀ j, j < k → candidateName (pathStem filename) (pathSuffix filename) j ∈ dir := by
  obtain ⟨w, _, hwle, hwfree⟩ := exists_fresh dir (pathStem filename) (pathSuffix filename) 0
  have hex : ∃ k, candidateName (pathStem filename) (pathSuffix filename) k ∉ dir :=
    ⟨w, hwfree⟩
  refine ⟨Nat.find hex, ?_, Nat.find_spec hex, ?_⟩
  · have hmin : Nat.find hex ≤ w := Nat.find_min' hex hwfree
    exact uniqueLoop_eq dir _ _ (dir.length + 1) 0 (Nat.find hex) (by omega)
      (by omega) (Nat.find_spec hex)
      (fun j _ hj => by
        have := Nat.find_min hex hj
        exact not_not.mp this)
  · intro j hj
    have := Nat.find_min hex hj
    exact not_not.mp this


theorem scanTBS_convert_format (dir : List String) (dec : Option ImgInfo)
    (e u : Bool) (fn tgt : String) :
    scanTBS (convert_format dir dec e u fn tgt).events false = true := by
  unfold convert_format
  split
  · rfl
  · cases dec with
    | none => rfl
    | some im =>
      simp only [saveRgbEvents]
      split_ifs <;> simp [scanTBS]

theorem scanUAS_convert_format (dir : List String) (dec : Option ImgInfo)
    (e u : Bool) (fn tgt : String) :
    scanUAS (convert_format dir dec e u fn tgt).events false = true := by
  unfold convert_format
  split
  · rfl
  · cases dec with
    | none => rfl
    | some im =>
      simp only [saveRgbEvents]
      split_ifs <;> simp [scanUAS]

theorem scanUAS_convert_if_webp (dir : List String) (dec : Option ImgInfo)
    (e u : Bool) (fn tgt : String) :
    scanUAS (convert_if_webp dir dec e u fn tgt).events false = true := by
  unfold convert_if_webp
  split
  · rfl
  · split
    · rfl
    · cases dec with
      | none => rfl
      | some im =>
        simp only [webpBodyEvents]
        split_ifs <;> simp [scanUAS]

theorem downloadLoop_all_fail (guess : Option String → String)
    (attempts : Nat → Attempt) (stem extUrl : String) :
    ∀ (rem k : Nat) (dir written : List String),
    (∀ j, k ≤ j → j < k + rem → attemptRaisesEarly (attempts j) = true) →
    downloadLoop guess attempts stem extUrl k rem dir written
      = { savedName := "", attemptsMade := k + rem, written := written } := by
  intro rem
  induction rem with
  | zero => intro k dir written _; rfl
  | succ r ih =>
    intro k dir written h
    have hk := h k (le_refl k) (by omega)
    have harith : k + (r + 1) = (k + 1) + r := by omega
    rw [harith]
    cases hak : attempts k with
    | transportError =>
      simp only [downloadLoop, hak]
      exact ih (k + 1) dir written (fun j h1 h2 => h j (by omega) (by omega))
    | response s ct b =>
      rw [hak] at hk
      have hk2 : raiseForStatus s = true := hk
      simp only [downloadLoop, hak, hk2, if_true]
      exact ih (k + 1) dir written (fun j h1 h2 => h j (by omega) (by omega))

theorem mimetypes_nonempty_values (ct : String) (ext : String)
    (h : mimetypes_guess_extension ct = some ext) : ext ≠ "" := by
  unfold mimetypes_guess_extension at h
  cases hf : mimetypesTable.find? (fun p => p.1 = lowerS ct) with
  | none => rw [hf] at h; simp at h
  | some p =>
    rw [hf] at h
    have h2 : p.2 = ext := by
      have h3 : some p.2 = some ext := h
      injection h3
    have hp := List.mem_of_find?_eq_some hf
    have hall : ∀ q ∈ mimetypesTable, q.2 ≠ "" := by decide
    exact h2 ▸ hall p hp

theorem dot_append_ne_empty (s : String) : ("." ++ s : String) ≠ "" := by
  intro h
  have := congrArg String.data h
  simp [String.data_append] at this

theorem guess_ext_ne_empty (ct : Option String) :
    guess_ext_from_content_type ct ≠ "" := by
  unfold guess_ext_from_content_type
  cases ct with
  | none => decide
  | some c =>
    by_cases hc : c = ""
    · simp [hc]
    · simp only [hc, if_false]
      cases hm : mimetypes_guess_extension (pyStrip ⟨c.data.takeWhile (· ≠ ';')⟩) with
      | some ext =>
        have hne := mimetypes_nonempty_values _ _ hm
        by_cases hj : ext = ".jpe" ∨ ext = ".jpeg" ∨ ext = ".jpg"
        · simp [hj]
        · simp [hj, hne]
      | none =>
        by_cases hp : "image/".data.isPrefixOf c.data
        · simp only [hp, if_true]
          split
          · decide
          · split
            · exact dot_append_ne_empty _
            · decide
        · simp [hp]

theorem snd_guess_name_ne_empty (url : String) :
    (guess_name_and_ext_from_url url).2 ≠ "" := by
  show (guess_name_and_ext_from_url url).2 ≠ ""
  unfold guess_name_and_ext_from_url
  by_cases h0 : osBasename (urlsplit url).2.2.data = []
  · simp [h0]
  · simp only [h0, if_false]
    split
    · intro hh
      exact (show (".jpg" : String) ≠ "" by decide) hh
    · exact dot_append_ne_empty _

theorem scanTBS_maybe_convert (dir : List String) (dec : Option ImgInfo)
    (e u heif : Bool) (fn w h f : String) :
    scanTBS (maybe_convert_by_ext dir dec e u heif fn w h f).events false = true := by
  unfold maybe_convert_by_ext
  split
  · exact scanTBS_convert_format dir dec e u fn f
  · split
    · exact scanTBS_convert_format dir dec e u fn w
    · split
      · split
        · rfl
        · exact scanTBS_convert_format dir dec e u fn h
      · rfl

theorem convert_if_webp_no_transpose (dir : List String) (dec : Option ImgInfo)
    (e u : Bool) (fn tgt : String) :
    (convert_if_webp dir dec e u fn tgt).events.contains ConvEv.exifTranspose = false := by
  unfold convert_if_webp
  split
  · rfl
  · split
    · rfl
    · cases dec with
      | none => rfl
      | some im =>
        simp only [webpBodyEvents]
        split_ifs <;> simp [List.contains_cons]

theorem processRecord_isOk_or (env : RecordEnv) (dir : List String)
    (retries : Nat) (url : Option String) :
    exceptOk (processRecord env dir retries url) = true
      ∨ (env.localExists = true ∧ env.localCopyOk = false) := by
  cases url with
  | none => left; rfl
  | some s =>
    unfold processRecord
    by_cases h1 : pyStrip s = ""
    · left; simp [h1, exceptOk]
    · by_cases h2 : "data:".data.isPrefixOf (pyStrip s).data = true
      · left; simp [h1, h2, exceptOk]
      · by_cases h3 : (splitScheme (pyStrip s).data).1 = "http"
            ∨ (splitScheme (pyStrip s).data).1 = "https"
        · left; simp [h1, h2, h3, exceptOk]
        · by_cases h4 : env.localExists = true
          · by_cases h5 : env.localCopyOk = true
            · left; simp [h1, h2, h3, h4, h5, exceptOk]
            · right; exact ⟨h4, by simpa using h5⟩
          · left; simp [h1, h2, h3, h4, exceptOk]

theorem processRecordForce_isOk_or (env : RecordEnv) (cenv : ConvEnv)
    (dir : List String) (retries : Nat) (w h f : String) (url : Option String) :
    exceptOk (processRecordForce env cenv dir retries w h f url) = true
      ∨ (env.localExists = true ∧ env.localCopyOk = false) := by
  cases url with
  | none => left; rfl
  | some s =>
    unfold processRecordForce
    by_cases h1 : pyStrip s = ""
    · left; simp [h1, exceptOk]
    · by_cases h2 : "data:".data.isPrefixOf (pyStrip s).data = true
      · by_cases hn : save_data_url dir env.dataWriteOk (pyStrip s) env.urlHash = ""
        · left; simp [h1, h2, hn, exceptOk]
        · left; simp [h1, h2, hn, exceptOk]
      · by_cases h3 : (splitScheme (pyStrip s).data).1 = "http"
            ∨ (splitScheme (pyStrip s).data).1 = "https"
        · by_cases hn : (download_http_image_conv env.attempts dir (pyStrip s)
              env.urlHash retries).savedName = ""
          · left; simp [h1, h2, h3, hn, exceptOk]
          · left; simp [h1, h2, h3, hn, exceptOk]
        · by_cases h4 : env.localExists = true
          · by_cases h5 : env.localCopyOk = true
            · by_cases hn : unique_path dir
                  (sanitize_filename ("img_" ++ ⟨env.urlHash.data.take 10⟩)
                    ++ if pathSuffix (pyStrip s) = "" then ".jpg"
                       else pathSuffix (pyStrip s)) = ""
              · left; simp [h1, h2, h3, h4, h5, hn, exceptOk]
              · left; simp [h1, h2, h3, h4, h5, hn, exceptOk]
            · right; exact ⟨h4, by simpa using h5⟩
          · left; simp [h1, h2, h3, h4, exceptOk]

theorem processCsv_isOk_or (retries : Nat) :
    ∀ (rs : List (Option String × RecordEnv)) (dir : List String),
    exceptOk (processCsv dir retries rs) = true
      ∨ ∃ p ∈ rs, p.2.localExists = true ∧ p.2.localCopyOk = false := by
  intro rs
  induction rs with
  | nil => intro dir; left; rfl
  | cons hd tl ih =>
    intro dir
    rcases processRecord_isOk_or hd.2 dir retries hd.1 with hok | hbad
    · cases hpr : processRecord hd.2 dir retries hd.1 with
      | error e => rw [hpr] at hok; simp [exceptOk] at hok
      | ok pr =>
        obtain ⟨name, dir2⟩ := pr
        rcases ih dir2 with h2 | h2
        · left
          show exceptOk (processCsv dir retries (hd :: tl)) = true
          obtain ⟨u0, e0⟩ := hd
          simp only [processCsv, hpr]
          cases hpc : processCsv dir2 retries tl with
          | error e => rw [hpc] at h2; simp [exceptOk] at h2
          | ok names => simp [exceptOk]
        · right
          obtain ⟨p, hpmem, hp⟩ := h2
          exact ⟨p, List.mem_cons_of_mem _ hpmem, hp⟩
    · right
      exact ⟨hd, List.mem_cons_self _ _, hbad⟩

/-! ## The claims -/

/-- C1, amended: in the convert-all variant every conversion performed by
`maybe_convert_by_ext` — whether triggered by the force-format, WEBP or HEIC
policy — applies EXIF-orientation correction to the decoded pixel data
strictly before the image is re-encoded (`scanTBS` checks each `save`/
`saveFail` is preceded by an `exifTranspose`); the WEBP-only variant's
`convert_if_webp`, however, applies no EXIF-orientation correction at all. -/
theorem C1_force_normalizer_transposes_webp_variant_does_not :
    (∀ (dir : List String) (dec : Option ImgInfo) (e u heif : Bool)
        (fn w h f : String),
      scanTBS (maybe_convert_by_ext dir dec e u heif fn w h f).events false = true)
    ∧ (∀ (dir : List String) (dec : Option ImgInfo) (e u : Bool) (fn tgt : String),
      (convert_if_webp dir dec e u fn tgt).events.contains ConvEv.exifTranspose
        = false) :=
  ⟨fun dir dec e u heif fn w h f => scanTBS_maybe_convert dir dec e u heif fn w h f,
   fun dir dec e u fn tgt => convert_if_webp_no_transpose dir dec e u fn tgt⟩

/-- C1 counterexample: a conversion triggered by the WEBP policy in
`downloadimagesasjpg.py` re-encodes (a `save` event occurs) with no
EXIF-orientation correction anywhere in its trace, refuting the claim that
every conversion applies it. -/
theorem C1_webp_conversion_without_exif :
    (convert_if_webp ["x.webp"] (some ⟨"RGB", false, false, ["R", "G", "B"]⟩)
        true true "x.webp" "jpg")
      = ⟨"x.jpg", [ConvEv.convertMode "RGB", ConvEv.save "x.jpg" "JPEG",
                   ConvEv.unlinkDone "x.webp"]⟩
    ∧ (convert_if_webp ["x.webp"] (some ⟨"RGB", false, false, ["R", "G", "B"]⟩)
        true true "x.webp" "jpg").events.contains ConvEv.exifTranspose = false :=
  ⟨by decide, by decide⟩

/-- C2, amended: a per-record failure in classification (unsupported
reference), inline-data handling, or the HTTP fetch resolves to a sentinel
and the loop continues; but an `OSError` in the local-file copy branch
(`dest.write_bytes(p.read_bytes())`, which no handler guards) escapes the
record and aborts the batch loop, in both `downloadimages.py` and
`downloadimagesasjpgforce.py`. -/
theorem C2_per_record_failures_sentinel_except_local_copy :
    (∀ (env : RecordEnv) (dir : List String) (retries : Nat) (url : Option String),
      exceptOk (processRecord env dir retries url) = true
        ∨ (env.localExists = true ∧ env.localCopyOk = false))
    ∧ (∀ (env : RecordEnv) (cenv : ConvEnv) (dir : List String) (retries : Nat)
        (w h f : String) (url : Option String),
      exceptOk (processRecordForce env cenv dir retries w h f url) = true
        ∨ (env.localExists = true ∧ env.localCopyOk = false))
    ∧ (∀ (retries : Nat) (rs : List (Option String × RecordEnv)) (dir : List String),
      exceptOk (processCsv dir retries rs) = true
        ∨ ∃ p ∈ rs, p.2.localExists = true ∧ p.2.localCopyOk = false) :=
  ⟨processRecord_isOk_or, processRecordForce_isOk_or, processCsv_isOk_or⟩

/-- C2 counterexample: a record whose reference is an existing local file
whose copy raises (`localCopyOk = false`) aborts the batch loop with an
exception instead of resolving to a sentinel, in both pipeline variants. -/
theorem C2_local_copy_error_aborts_batch :
    processCsv [] 3 [(some "somefile.png",
        ⟨fun _ => Attempt.transportError, true, true, false, "h1"⟩)]
      = Except.error ()
    ∧ processRecordForce ⟨fun _ => Attempt.transportError, true, true, false, "h"⟩
        ⟨none, true, true, true⟩ [] 3 "jpg" "jpg" "" (some "local.png")
      = Except.error () :=
  ⟨rfl, rfl⟩

/-- C3, amended: when every GET attempt fails before the body write begins —
a transport error or a status in 400–599 (what `raise_for_status` raises
for) — a fetch with `retries = 3` performs exactly 3 attempts, returns the
empty filename and writes no file, in both `downloadimages.py` and the
converter variants.  (A non-2xx status outside 400–599, e.g. 304, is NOT
treated as a failed attempt: see the counterexample.) -/
theorem C3_exhausted_retries_empty_result (attempts : Nat → Attempt)
    (dir : List String) (url urlHash : String)
    (hfail : ∀ k, k < 3 → attemptRaisesEarly (attempts k) = true) :
    download_http_image attempts dir url urlHash 3
        = { savedName := "", attemptsMade := 3, written := [] }
    ∧ download_http_image_conv attempts dir url urlHash 3
        = { savedName := "", attemptsMade := 3, written := [] } := by
  constructor
  · unfold download_http_image
    simpa using downloadLoop_all_fail guess_ext_from_content_type attempts
      (httpStem url urlHash) (guess_name_and_ext_from_url url).2 3 0 dir []
      (fun j _ h2 => hfail j (by omega))
  · unfold download_http_image_conv
    simpa using downloadLoop_all_fail guess_ext_from_content_type_conv attempts
      (httpStem url urlHash) (guess_name_and_ext_from_url url).2 3 0 dir []
      (fun j _ h2 => hfail j (by omega))

/-- C3 witness: a URL that 404s on every attempt, with `retries = 3`,
yields the empty name after exactly 3 attempts and no file written. -/
theorem C3_exhausted_retries_empty_result_witness :
    download_http_image (fun _ => Attempt.response 404 none true) []
        "http://h/x.png" "ab" 3
      = { savedName := "", attemptsMade := 3, written := [] } :=
  (C3_exhausted_retries_empty_result (fun _ => Attempt.response 404 none true)
    [] "http://h/x.png" "ab" (fun _ _ => rfl)).1

/-- C3 counterexample: every attempt returns the non-2xx status 304, which
the claim says counts as a failed attempt; but `raise_for_status` does not
raise below 400, so the code succeeds on the first attempt, writes a file
and returns its non-empty name — not 3 attempts and an empty result. -/
theorem C3_non2xx_not_always_failed :
    download_http_image (fun _ => Attempt.response 304 none true) []
        "http://h/photo.png" "ab" 3
      = { savedName := "photo.png", attemptsMade := 1, written := ["photo.png"] }
    ∧ ("photo.png" : String) ≠ "" :=
  ⟨by decide, by decide⟩

/-- C4, amended: the extension-inference functions map the common image
subtypes as promised (`jpeg`/`jpg` → `.jpg`, and `png`, `gif`, `webp`,
`bmp`, `tiff` to their dotted extensions), and default to `.jpg` when
the header is absent, empty, or wholly unrecognized; but a header the MIME
table recognizes yields the table's extension even when it is not
image-related, and in the converter variants an unrecognized `image/*`
subtype yields `"." + subtype` instead of `.jpg`. -/
theorem C4_content_type_extension_mapping :
    guess_ext_from_content_type none = ".jpg"
    ∧ guess_ext_from_content_type (some "") = ".jpg"
    ∧ guess_ext_from_content_type (some "image/jpeg") = ".jpg"
    ∧ guess_ext_from_content_type (some "image/jpg") = ".jpg"
    ∧ guess_ext_from_content_type (some "image/png") = ".png"
    ∧ guess_ext_from_content_type (some "image/gif") = ".gif"
    ∧ guess_ext_from_content_type (some "image/webp") = ".webp"
    ∧ guess_ext_from_content_type (some "image/bmp") = ".bmp"
    ∧ guess_ext_from_content_type (some "image/tiff") = ".tiff"
    ∧ guess_ext_from_content_type (some "image/png; charset=binary") = ".png"
    ∧ guess_ext_from_content_type (some "application/x-unknown-xyz") = ".jpg"
    ∧ guess_ext_from_content_type (some "image/x-abc") = ".jpg"
    ∧ guess_ext_from_content_type (some "text/html") = ".html"
    ∧ guess_ext_from_content_type_conv none = ".jpg"
    ∧ guess_ext_from_content_type_conv (some "") = ".jpg"
    ∧ guess_ext_from_content_type_conv (some "image/jpeg") = ".jpg"
    ∧ guess_ext_from_content_type_conv (some "image/jpg") = ".jpg"
    ∧ guess_ext_from_content_type_conv (some "image/png") = ".png"
    ∧ guess_ext_from_content_type_conv (some "image/gif") = ".gif"
    ∧ guess_ext_from_content_type_conv (some "image/webp") = ".webp"
    ∧ guess_ext_from_content_type_conv (some "image/bmp") = ".bmp"
    ∧ guess_ext_from_content_type_conv (some "image/tiff") = ".tiff"
    ∧ guess_ext_from_content_type_conv (some "application/x-unknown-xyz") = ".jpg"
    ∧ guess_ext_from_content_type_conv (some "image/x-abc") = ".x-abc"
    ∧ guess_ext_from_content_type_conv (some "text/html") = ".html" := by
  decide

/-- C4 counterexample: `application/pdf` is recognized by the MIME table
and is not image-related, yet the functions return `.pdf`, not the claimed
default `.jpg`; and the converter variants return `.x-foo` for the
unrecognized subtype `image/x-foo`. -/
theorem C4_recognized_nonimage_counterexample :
    guess_ext_from_content_type (some "application/pdf") = ".pdf"
    ∧ guess_ext_from_content_type_conv (some "application/pdf") = ".pdf"
    ∧ guess_ext_from_content_type_conv (some "image/x-foo") = ".x-foo" := by
  decide

/-- C5: in `download_http_image` the URL-implied extension wins whenever it
is non-default (not `.jpg`); the content-type-derived extension is used
exactly when the URL implies no extension or implies `.jpg` (the
URL-parsing helper returns `.jpg` in both of those cases and never an empty
extension).  Concretely, a `.png` URL served as `image/gif` is saved as
`.png`, and an extension-less URL served as `image/gif` is saved as `.gif`. -/
theorem C5_url_extension_precedence :
    (∀ (url : String) (ct : Option String),
      chooseExt guess_ext_from_content_type ct (guess_name_and_ext_from_url url).2
        = if (guess_name_and_ext_from_url url).2 = ".jpg"
          then guess_ext_from_content_type ct
          else (guess_name_and_ext_from_url url).2)
    ∧ (download_http_image (fun _ => Attempt.response 200 (some "image/gif") true)
        [] "http://h/photo.png" "0123456789" 3).savedName = "photo.png"
    ∧ (download_http_image (fun _ => Attempt.response 200 (some "image/gif") true)
        [] "http://h/photo" "0123456789" 3).savedName = "photo.gif" := by
  refine ⟨?_, by decide, by decide⟩
  intro url ct
  have hne := snd_guess_name_ne_empty url
  have hg := guess_ext_ne_empty ct
  unfold chooseExt
  by_cases hj : (guess_name_and_ext_from_url url).2 = ".jpg"
  · simp [hj, hg]
  · simp [hj, hne]

/-- C6: for both normalizer realizations, a decode failure or an encode
failure returns the original filename unchanged (the functions are total —
no exception escapes them); the source file is deleted only after the
destination write has fully succeeded (`scanUAS`); and the returned name
does not depend on whether the deletion succeeded — concretely, a failed
unlink still returns the new filename, with the failure swallowed. -/
theorem C6_conversion_failure_and_cleanup_contract :
    (∀ (dir : List String) (e u : Bool) (fn tgt : String),
        (convert_format dir none e u fn tgt).name = fn
      ∧ (convert_if_webp dir none e u fn tgt).name = fn)
    ∧ (∀ (dir : List String) (im : ImgInfo) (u : Bool) (fn tgt : String),
        (convert_format dir (some im) false u fn tgt).name = fn
      ∧ (convert_if_webp dir (some im) false u fn tgt).name = fn)
    ∧ (∀ (dir : List String) (dec : Option ImgInfo) (e u : Bool) (fn tgt : String),
        scanUAS (convert_format dir dec e u fn tgt).events false = true
      ∧ scanUAS (convert_if_webp dir dec e u fn tgt).events false = true)
    ∧ (∀ (dir : List String) (dec : Option ImgInfo) (e : Bool) (fn tgt : String),
        (convert_format dir dec e false fn tgt).name
          = (convert_format dir dec e true fn tgt).name
      ∧ (convert_if_webp dir dec e false fn tgt).name
          = (convert_if_webp dir dec e true fn tgt).name)
    ∧ (convert_format ["x.webp"] (some ⟨"RGB", false, false, ["R", "G", "B"]⟩)
        true false "x.webp" "jpg")
      = ⟨"x.jpg", [ConvEv.exifTranspose, ConvEv.convertMode "RGB",
                   ConvEv.save "x.jpg" "JPEG", ConvEv.unlinkFail "x.webp"]⟩ := by
  refine ⟨?_, ?_, ?_, ?_, by decide⟩
  · intro dir e u fn tgt
    constructor
    · unfold convert_format
      split
      · rfl
      · rfl
    · unfold convert_if_webp
      split
      · rfl
      · split
        · rfl
        · rfl
  · intro dir im u fn tgt
    constructor
    · unfold convert_format
      split
      · rfl
      · simp
    · unfold convert_if_webp
      split
      · rfl
      · split
        · rfl
        · simp
  · intro dir dec e u fn tgt
    exact ⟨scanUAS_convert_format dir dec e u fn tgt,
           scanUAS_convert_if_webp dir dec e u fn tgt⟩
  · intro dir dec e fn tgt
    constructor
    · unfold convert_format
      split
      · rfl
      · cases dec with
        | none => rfl
        | some im => split_ifs <;> rfl
    · unfold convert_if_webp
      split
      · rfl
      · split
        · rfl
        · cases dec with
          | none => rfl
          | some im => split_ifs <;> rfl

/-- C7: `unique_path` returns the first candidate, in the probe order bare
name, `stem-1`, `stem-2`, …, that does not exist in the directory snapshot
(so it never designates an existing file, and is deterministic for a fixed
snapshot); on an empty directory `unique_path dir "a.jpg"` is `a.jpg`, and
when exactly `a.jpg` and `a-1.jpg` exist it is `a-2.jpg`. -/
theorem C7_unique_path_first_fresh_candidate :
    (∀ (dir : List String) (filename : String),
      ∃ k, unique_path dir filename
            = candidateName (pathStem filename) (pathSuffix filename) k
        ∧ candidateName (pathStem filename) (pathSuffix filename) k ∉ dir
        ∧ ∀ j, j < k →
            candidateName (pathStem filename) (pathSuffix filename) j ∈ dir)
    ∧ unique_path [] "a.jpg" = "a.jpg"
    ∧ unique_path ["a.jpg", "a-1.jpg"] "a.jpg" = "a-2.jpg" :=
  ⟨unique_path_least, by decide, by decide⟩

/-- C8: contrary to the claim (and to the script's own docstring, argparse
help and error message, which all name an `image` column), the
category-foldering utility's check accepts a table exactly when it has an
`image_name` column and an `event` column (case-insensitively): the
documented header `image, event` is rejected. -/
theorem C8_requires_image_name_column :
    acceptsColumns ["image", "event"] = false
    ∧ acceptsColumns ["image_name", "event"] = true
    ∧ acceptsColumns ["Image_Name", "EVENT"] = true
    ∧ acceptsColumns ["image_name"] = false
    ∧ acceptsColumns ["event"] = false := by
  decide

/-- C9, amended: the acquisition pipeline and the category-foldering
utility do NOT share one sanitization transform: the utility's
`sanitize_name` yields `"unknown"` on empty or `None` input while the
pipeline's `sanitize_filename` yields `"file"` on empty input, and the two
also disagree on ordinary inputs (dots are kept by the pipeline's
transform and folded to `_` by the utility's). -/
theorem C9_sanitizers_differ :
    sanitize_name (some "") = "unknown"
    ∧ sanitize_name none = "unknown"
    ∧ sanitize_filename "" = "file"
    ∧ sanitize_filename "a.b" = "a.b"
    ∧ sanitize_name (some "a.b") = "a_b"
    ∧ sanitize_filename "Event 1" = "Event_1"
    ∧ sanitize_name (some "Event 1") = "Event_1" := by
  decide

/-- C9 counterexample: on the empty string the pipeline's sanitizer returns
`"file"`, not the claimed common value `"unknown"` returned by the
utility's sanitizer — the two are not the same transform. -/
theorem C9_shared_sanitizer_counterexample :
    sanitize_filename "" ≠ sanitize_name (some "") := by
  decide

/-- C10: when the named file is absent from the images directory, both
`convert_format` and `convert_if_webp` return the given filename unchanged
and perform no filesystem write or deletion (their event trace is empty). -/
theorem C10_absent_file_noop (dir : List String) (dec : Option ImgInfo)
    (e u : Bool) (fn tgt : String) (habs : fn ∉ dir) :
    convert_format dir dec e u fn tgt = ⟨fn, []⟩
    ∧ convert_if_webp dir dec e u fn tgt = ⟨fn, []⟩ := by
  constructor
  · unfold convert_format
    simp [habs]
  · unfold convert_if_webp
    split
    · rfl
    · simp [habs]

/-- C10 witness: on an empty directory the conversions of `y.webp` are
no-ops returning `y.webp` itself. -/
theorem C10_absent_file_noop_witness :
    convert_format [] none true true "y.webp" "jpg" = ⟨"y.webp", []⟩
    ∧ convert_if_webp [] none true true "y.webp" "jpg" = ⟨"y.webp", []⟩ :=
  C10_absent_file_noop [] none true true "y.webp" "jpg" (by decide)

end Scrapper
